import Mathlib

/-!
Verification of the shapefile → EPANET `.inp` converter in `src/app.py`
(`convert_shp_to_inp`).  The development shallowly embeds the conversion
routine: geopandas rows become records of rationals, the wntr network model
becomes a pair of lists (junctions and pipes), Python's ordered `dict` used
for coordinate deduplication becomes an association list, Python floats
become exact rationals, and exceptions become `Except`.  The `[OPTIONS]`
post-processing operates on lists of lines (`file.readlines()`), a line
being a list of characters.
-/

/-- A line of text, as produced by `file.readlines()`: a list of characters. -/
abbrev Line := List Char

/-- Characters removed by Python `str.strip()` with no argument:
ASCII whitespace (space, tab, newline, carriage return, vertical tab,
form feed).  Non-ASCII whitespace never occurs in the processed text. -/
def isPySpace (c : Char) : Bool :=
  c = ' ' || c = '\t' || c = '\n' || c = '\r' || c = '\x0b' || c = '\x0c'

/-- Python `str.strip()`: drop leading and trailing whitespace. -/
def pyStrip (l : Line) : Line :=
  ((l.dropWhile isPySpace).reverse.dropWhile isPySpace).reverse

/-- Python `str.upper()`; the processed text is ASCII, where it agrees
with `Char.toUpper`. -/
def pyUpper (l : Line) : Line := l.map Char.toUpper

/-- The value `stripped_line = line.strip().upper()` (app.py line 121). -/
def stripUpper (l : Line) : Line := pyUpper (pyStrip l)

/-- The test `stripped_line == '[OPTIONS]'` (app.py line 122). -/
def isOptionsHeader (l : Line) : Bool := stripUpper l == "[OPTIONS]".toList

/-- The tuple `('UNITS', 'FLOWUNITS', 'HEADLOSS')` (app.py line 124). -/
def unitKeys : List Line := ["UNITS".toList, "FLOWUNITS".toList, "HEADLOSS".toList]

/-- The test `stripped_line.startswith(('UNITS', 'FLOWUNITS', 'HEADLOSS'))`
(app.py line 124). -/
def isUnitLine (l : Line) : Bool := unitKeys.any (fun k => k.isPrefixOf (stripUpper l))

/-- The three fixed option lines `options` inserted after the `[OPTIONS]`
header (app.py lines 130–134), exactly as in the source. -/
def optionsLines : List Line :=
  ["Units               LPS\n".toList,
   "FlowUnits           LPS\n".toList,
   "Headloss            H-W\n".toList]

/-- One iteration of the cleaning loop (app.py lines 120–126): the state is
`(options_index, clean_data)` with `none` standing for `-1`.  A header line
records the position it is about to occupy and is appended; a unit line is
skipped (`continue`); any other line is appended. -/
def scanStep (st : Option Nat × List Line) (line : Line) : Option Nat × List Line :=
  if isOptionsHeader line then (some st.2.length, st.2 ++ [line])
  else if isUnitLine line then st
  else (st.1, st.2 ++ [line])

/-- The whole cleaning loop over `data` (app.py lines 117–126). -/
def scanLines (data : List Line) : Option Nat × List Line :=
  data.foldl scanStep (none, [])

/-- The `[OPTIONS]` post-processing (app.py lines 117–138): clean the lines,
and if a header was found, splice `optionsLines` in right after it
(`clean_data[options_index+1:options_index+1] = options`). -/
def postProcess (data : List Line) : List Line :=
  match scanLines data with
  | (none, clean) => clean
  | (some i, clean) => clean.take (i + 1) ++ optionsLines ++ clean.drop (i + 1)

/-- A line survives the cleaning loop iff it is an `[OPTIONS]` header or not
a unit line. -/
def keepLine (l : Line) : Bool := isOptionsHeader l || !(isUnitLine l)

/-- Position of the last `[OPTIONS]` header in a list of lines, if any. -/
def hdrIdx : List Line → Option Nat
  | [] => none
  | l :: ls =>
    match hdrIdx ls with
    | some j => some (j + 1)
    | none => if isOptionsHeader l then some 0 else none

/-- Decimal value of a digit string, a left inverse of `Nat.toDigits 10`
used to show the generated identifiers `N1, N2, …`/`P1, P2, …` are
pairwise distinct. -/
def digitsVal (l : List Char) : Nat := l.foldl (fun a c => 10 * a + (c.toNat - 48)) 0

/-- A rounded coordinate pair: the deduplication key of the routine.
Python floats are modelled as exact rationals. -/
abbrev Coord := ℚ × ℚ

/-- Round to the nearest integer, ties to even, on exact rationals: the
value Python's `round` computes on the decimal expansion. -/
def roundHalfEven (q : ℚ) : ℤ :=
  if q - ⌊q⌋ < 1/2 then ⌊q⌋
  else if (1 : ℚ)/2 < q - ⌊q⌋ then ⌊q⌋ + 1
  else if ⌊q⌋ % 2 = 0 then ⌊q⌋ else ⌊q⌋ + 1

/-- Python `round(x, 6)` (app.py lines 51–52, 71, 90–91) on the exact value. -/
def pyRound6 (q : ℚ) : ℚ := (roundHalfEven (q * 1000000) : ℚ) / 1000000

/-- Rounding both components of a raw vertex. -/
def roundCoords (p : ℚ × ℚ) : Coord := (pyRound6 p.1, pyRound6 p.2)

/-- A record of the links layer: its geometry vertices and the attribute
columns the routine reads (`diameter`, `Shape__Len`, `rugosidade`). -/
structure LinkRow where
  geometry : List (ℚ × ℚ)
  diameter : ℚ
  shapeLen : ℚ
  rugosidade : ℚ

/-- A record of the nodes layer: a point geometry and the attribute
columns the routine reads (`Cota`, `Demanda`). -/
structure NodeRow where
  x : ℚ
  y : ℚ
  cota : ℚ
  demanda : ℚ

/-- `row.geometry.coords[0]` (app.py lines 48, 87).  Python raises on an
empty geometry (caught by the top-level handler); the default is never
exercised by the claims. -/
def startVertex (r : LinkRow) : ℚ × ℚ := r.geometry.headD (0, 0)

/-- `row.geometry.coords[-1]` (app.py lines 49, 88). -/
def endVertex (r : LinkRow) : ℚ × ℚ := r.geometry.getLastD (0, 0)

/-- `start_coords` (app.py lines 51, 90). -/
def startCoords (r : LinkRow) : Coord := roundCoords (startVertex r)

/-- `end_coords` (app.py lines 52, 91). -/
def endCoords (r : LinkRow) : Coord := roundCoords (endVertex r)

/-- A wntr junction as this routine uses it: name, elevation, base demand
of the single demand entry, and coordinates. -/
structure Junction where
  name : String
  elevation : ℚ
  baseDemand : ℚ
  coordinates : Coord
  deriving DecidableEq

/-- A wntr pipe as this routine creates it. -/
structure Pipe where
  name : String
  startNode : String
  endNode : String
  length : ℚ
  diameter : ℚ
  roughness : ℚ
  minorLoss : ℚ
  deriving DecidableEq

/-- The parts of `wntr.network.WaterNetworkModel` this routine touches,
in insertion order. -/
structure WaterNetworkModel where
  junctions : List Junction
  pipes : List Pipe
  deriving DecidableEq

/-- `wn = wntr.network.WaterNetworkModel()` (app.py line 41). -/
def emptyWN : WaterNetworkModel := { junctions := [], pipes := [] }

/-- Processing of one rounded endpoint coordinate (app.py lines 54–57 and
59–62): if the coordinate is not a key of `nodes_dict`, allocate
`N{len(nodes_dict)+1}`, register it, and add a junction with zero demand
and zero elevation at that coordinate.  `nodes_dict` is an insertion-ordered
association list, as a Python `dict`. -/
def addEndpoint (st : List (Coord × String) × WaterNetworkModel) (c : Coord) :
    List (Coord × String) × WaterNetworkModel :=
  match st.1.lookup c with
  | some _ => st
  | none =>
    let nid := "N" ++ toString (st.1.length + 1)
    (st.1 ++ [(c, nid)],
     { st.2 with junctions := st.2.junctions ++
        [{ name := nid, elevation := 0, baseDemand := 0, coordinates := c }] })

/-- The first pass over the links layer (app.py lines 47–62): for each row,
its rounded start endpoint is processed, then its rounded end endpoint. -/
def buildJunctions (links : List LinkRow) : List (Coord × String) × WaterNetworkModel :=
  links.foldl (fun st r => addEndpoint (addEndpoint st (startCoords r)) (endCoords r))
    ([], emptyWN)

/-- All rounded endpoint coordinates of the links layer in scan order
(start before end within each row). -/
def endpointCoordList (links : List LinkRow) : List Coord :=
  links.flatMap (fun r => [startCoords r, endCoords r])

/-- First-seen-order deduplication of a list of coordinates. -/
def firstDedup (cs : List Coord) : List Coord :=
  cs.foldl (fun acc c => if c ∈ acc then acc else acc ++ [c]) []

/-- The rounded coordinate of a nodes-layer record (app.py line 71). -/
def rowCoord (r : NodeRow) : Coord := (pyRound6 r.x, pyRound6 r.y)

/-- The second pass, over the nodes layer (app.py lines 70–78): look the
rounded coordinate up in `nodes_dict`; when found (`if node_id:`), set the
junction's elevation to `Cota / 3.280839895054167` and its base demand to
`Demanda / 15850.32314147994`; otherwise the record is skipped. -/
def updateNodes (dict : List (Coord × String)) (wn : WaterNetworkModel)
    (rows : List NodeRow) : WaterNetworkModel :=
  rows.foldl (fun wn r =>
    match dict.lookup (rowCoord r) with
    | none => wn
    | some nid =>
      { wn with junctions := wn.junctions.map (fun j =>
          if j.name = nid then
            { j with elevation := r.cota / 3.280839895054167,
                     baseDemand := r.demanda / 15850.32314147994 }
          else j) }) wn

/-- The pipe `wn.add_pipe(...)` creates for links-layer record `r` when
there are `k` pipes so far (app.py lines 95–106): name `P{k+1}`, length
`Shape__Len / 3.280839895032449` (feet→meters), diameter
`diameter / 39.37007874` (inches→meters), roughness passed through
unmodified, minor loss fixed at zero. -/
def mkPipe (k : Nat) (n1 n2 : String) (r : LinkRow) : Pipe :=
  { name := "P" ++ toString (k + 1),
    startNode := n1, endNode := n2,
    length := r.shapeLen / 3.280839895032449,
    diameter := r.diameter / 39.37007874,
    roughness := r.rugosidade,
    minorLoss := 0 }

/-- The third pass, over the links layer again (app.py lines 86–106):
resolve both rounded endpoints through `nodes_dict` (a failed lookup is
Python's `KeyError`, surfacing as `none`), then add the pipe
`mkPipe (len(wn.links)) node1 node2 row`. -/
def addPipes (dict : List (Coord × String)) (links : List LinkRow)
    (wn : WaterNetworkModel) : Option WaterNetworkModel :=
  links.foldl (fun acc r =>
    acc.bind (fun wn =>
      match dict.lookup (startCoords r), dict.lookup (endCoords r) with
      | some n1, some n2 =>
        some { wn with pipes := wn.pipes ++ [mkPipe wn.pipes.length n1 n2 r] }
      | _, _ => none)) (some wn)

/-- `required_node_cols = {'Cota', 'Demanda'}` (app.py line 65); Python
iterates the set in unspecified order, listed here as written. -/
def requiredNodeCols : List String := ["Cota", "Demanda"]

/-- `required_link_cols = {'diameter', 'Shape__Len', 'rugosidade'}`
(app.py line 81). -/
def requiredLinkCols : List String := ["diameter", "Shape__Len", "rugosidade"]

/-- The nodes layer: its columns and its records. -/
structure NodesTable where
  columns : List String
  rows : List NodeRow

/-- The links layer: its columns and its records. -/
structure LinksTable where
  columns : List String
  rows : List LinkRow

/-- Failure outcomes of the conversion, all reduced by the top-level
handler to a message.  `missingCols` carries the column names the
`ValueError` message enumerates (the full required set, app.py lines 67
and 83); `lookupFailure` is the generically wrapped `KeyError`. -/
inductive ConvError where
  | missingCols (layer : String) (listed : List String)
  | lookupFailure
  deriving DecidableEq

/-- `convert_shp_to_inp` after archive extraction and layer loading
(app.py lines 41–140), parametrized by the wntr `.inp` serializer
(external library code, app.py lines 109–115). -/
def convert_shp_to_inp (nodes : NodesTable) (links : LinksTable)
    (serialize : WaterNetworkModel → List Line) : Except ConvError (List Line) :=
  let st := buildJunctions links.rows
  if requiredNodeCols.all (fun c => nodes.columns.contains c) then
    let wn1 := updateNodes st.1 st.2 nodes.rows
    if requiredLinkCols.all (fun c => links.columns.contains c) then
      match addPipes st.1 links.rows wn1 with
      | some wn2 => Except.ok (postProcess (serialize wn2))
      | none => Except.error ConvError.lookupFailure
    else Except.error (ConvError.missingCols "trechos" requiredLinkCols)
  else Except.error (ConvError.missingCols "nós" requiredNodeCols)

/-- The nodes-layer records whose rounded coordinate resolves to junction
`nm` through `nodes_dict`. -/
def rowsMatching (dict : List (Coord × String)) (nm : String)
    (rows : List NodeRow) : List NodeRow :=
  rows.filter (fun r => dict.lookup (rowCoord r) == some nm)

/-- What the third pass stores for the `k`-th pipe (0-based) built from
links-layer record `r`: both endpoint names come from successful
`nodes_dict` lookups and the pipe is exactly `mkPipe k n1 n2 r`. -/
def pipeMatches (dict : List (Coord × String)) (k : Nat) (r : LinkRow) (p : Pipe) : Prop :=
  ∃ n1 n2, dict.lookup (startCoords r) = some n1 ∧
    dict.lookup (endCoords r) = some n2 ∧ p = mkPipe k n1 n2 r

/-- Sample links-layer record from (0,0) to (1,0). -/
def wlink0 : LinkRow := ⟨[((0 : ℚ), (0 : ℚ)), ((1 : ℚ), (0 : ℚ))], 6, 100, 120⟩

/-- Sample links-layer record whose two endpoints coincide at (2,2). -/
def wlink1 : LinkRow := ⟨[((2 : ℚ), (2 : ℚ))], 6, 100, 120⟩

/-- Sample links-layer record from (3,0) to (4,0). -/
def wlink2 : LinkRow := ⟨[((3 : ℚ), (0 : ℚ)), ((4 : ℚ), (0 : ℚ))], 8, 50, 130⟩

/-- Sample nodes-layer record at (3,0). -/
def wnode2 : NodeRow := ⟨3, 0, 10, 100⟩

/-- Sample links-layer record degenerate at (0,0). -/
def wlink3 : LinkRow := ⟨[((0 : ℚ), (0 : ℚ))], 6, 100, 120⟩

/-- Sample nodes-layer record at (5,5), matching no link endpoint. -/
def wnode3 : NodeRow := ⟨5, 5, 10, 100⟩

theorem foldl_scanStep (data : List Line) : ∀ (idx : Option Nat) (acc : List Line),
    data.foldl scanStep (idx, acc) =
      ((match hdrIdx (data.filter keepLine) with
        | some j => some (acc.length + j)
        | none => idx),
       acc ++ data.filter keepLine) := by
  induction data with
  | nil => intro idx acc; simp [hdrIdx]
  | cons l ls ih =>
    intro idx acc
    by_cases hh : isOptionsHeader l
    · have hk : keepLine l = true := by simp [keepLine, hh]
      rw [List.foldl_cons, show scanStep (idx, acc) l = (some acc.length, acc ++ [l]) by
        simp [scanStep, hh]]
      rw [ih]
      rw [List.filter_cons_of_pos hk]
      cases hrec : hdrIdx (List.filter keepLine ls) with
      | none => simp [hdrIdx, hrec, hh]
      | some j => simp [hdrIdx, hrec, hh]; omega
    · by_cases hu : isUnitLine l
      · have hk : keepLine l = false := by simp [keepLine, hh, hu]
        rw [List.foldl_cons, show scanStep (idx, acc) l = (idx, acc) by simp [scanStep, hh, hu]]
        rw [ih, List.filter_cons_of_neg (by simp [hk])]
      · have hk : keepLine l = true := by simp [keepLine, hh, hu]
        rw [List.foldl_cons, show scanStep (idx, acc) l = (idx, acc ++ [l]) by
          simp [scanStep, hh, hu]]
        rw [ih, List.filter_cons_of_pos hk]
        cases hrec : hdrIdx (List.filter keepLine ls) with
        | none => simp [hdrIdx, hrec, hh]
        | some j => simp [hdrIdx, hrec, hh]; omega

theorem scanLines_eq (data : List Line) :
    scanLines data = (hdrIdx (data.filter keepLine), data.filter keepLine) := by
  rw [scanLines, foldl_scanStep]
  cases hdrIdx (data.filter keepLine) <;> simp

theorem hdrIdx_eq_none_iff (ls : List Line) :
    hdrIdx ls = none ↔ ∀ l ∈ ls, isOptionsHeader l = false := by
  induction ls with
  | nil => simp [hdrIdx]
  | cons l ls ih =>
    cases hrec : hdrIdx ls with
    | some j =>
      simp only [hdrIdx, hrec]
      constructor
      · intro h; exact absurd h (by simp)
      · intro h
        have : hdrIdx ls = none := (ih.mpr (fun x hx => h x (List.mem_cons_of_mem _ hx)))
        rw [this] at hrec; exact absurd hrec (by simp)
    | none =>
      simp only [hdrIdx, hrec]
      by_cases hh : isOptionsHeader l
      · simp only [hh, if_true]
        constructor
        · intro h; exact absurd h (by simp)
        · intro h; exact absurd (h l (List.mem_cons_self _ _)) (by simp [hh])
      · simp only [hh, if_neg, Bool.false_eq_true, if_false]
        constructor
        · intro _ x hx
          rcases List.mem_cons.mp hx with h1 | h1
          · subst h1; simpa using hh
          · exact (ih.mp hrec) x h1
        · intro _; trivial

theorem hdrIdx_append_last (xs ys : List Line) (h : Line)
    (hh : isOptionsHeader h = true) (hys : ∀ l ∈ ys, isOptionsHeader l = false) :
    hdrIdx (xs ++ h :: ys) = some xs.length := by
  induction xs with
  | nil => simp [hdrIdx, (hdrIdx_eq_none_iff ys).mpr hys, hh]
  | cons x xs ih => simp [hdrIdx, ih]

theorem filter_keepLine_optionsLines : optionsLines.filter keepLine = [] := by decide

theorem filter_keepLine_of_sub {l f : List Line} (hsub : l ⊆ f)
    (hf : ∀ x ∈ f, keepLine x = true) : l.filter keepLine = l :=
  List.filter_eq_self.mpr (fun x hx => hf x (hsub hx))

/-- C4: for lines containing an `[OPTIONS]` header (the hypotheses name the
last header), post-processing removes every line whose stripped, upper-cased
form starts with `UNITS`, `FLOWUNITS` or `HEADLOSS`, keeps every other line
in order, and splices exactly the three fixed option lines immediately after
the header line. -/
theorem spec_C4 (before after : List Line) (h : Line)
    (hh : isOptionsHeader h = true)
    (hafter : ∀ l ∈ after, isOptionsHeader l = false) :
    postProcess (before ++ h :: after) =
      before.filter keepLine ++ h :: (optionsLines ++ after.filter keepLine) := by
  have hkh : keepLine h = true := by simp [keepLine, hh]
  have hfilter : (before ++ h :: after).filter keepLine =
      before.filter keepLine ++ h :: after.filter keepLine := by
    rw [List.filter_append, List.filter_cons_of_pos hkh]
  have hafter' : ∀ l ∈ after.filter keepLine, isOptionsHeader l = false :=
    fun l hl => hafter l (List.mem_of_mem_filter hl)
  have hidx : hdrIdx ((before ++ h :: after).filter keepLine) =
      some (before.filter keepLine).length := by
    rw [hfilter]; exact hdrIdx_append_last _ _ _ hh hafter'
  rw [postProcess]
  rw [scanLines_eq, hidx, hfilter]
  have hsplit : before.filter keepLine ++ h :: after.filter keepLine =
      (before.filter keepLine ++ [h]) ++ after.filter keepLine := by simp
  rw [hsplit]
  dsimp only
  rw [@List.take_left' _ (List.filter keepLine before ++ [h]) (List.filter keepLine after)
      _ (by simp),
    @List.drop_left' _ (List.filter keepLine before ++ [h]) (List.filter keepLine after)
      _ (by simp)]
  simp

/-- C5: the `[OPTIONS]` normalization is idempotent: the inserted option
lines are themselves unit lines, so a second pass strips and re-inserts
them, producing the same list of lines. -/
theorem spec_C5 (data : List Line) : postProcess (postProcess data) = postProcess data := by
  set f := data.filter keepLine with hf
  have hfkeep : ∀ x ∈ f, keepLine x = true := fun x hx => List.of_mem_filter hx
  cases hidx : hdrIdx f with
  | none =>
    have h1 : postProcess data = f := by rw [postProcess, scanLines_eq, ← hf, hidx]
    rw [h1]
    have h2 : f.filter keepLine = f := List.filter_eq_self.mpr hfkeep
    rw [postProcess, scanLines_eq, h2, hidx]
  | some i =>
    have h1 : postProcess data = f.take (i + 1) ++ optionsLines ++ f.drop (i + 1) := by
      rw [postProcess, scanLines_eq, ← hf, hidx]
    rw [h1]
    have h2 : (f.take (i + 1) ++ optionsLines ++ f.drop (i + 1)).filter keepLine = f := by
      rw [List.filter_append, List.filter_append, filter_keepLine_optionsLines,
        filter_keepLine_of_sub (List.take_subset _ _) hfkeep,
        filter_keepLine_of_sub (List.drop_subset _ _) hfkeep]
      simp [List.take_append_drop]
    rw [postProcess, scanLines_eq, h2, hidx]

/-- Witness for C4 at a concrete input: a unit line before the header and one
after it are stripped, and the three fixed lines land right after the header. -/
theorem spec_C4_witness :
    postProcess ["[JUNCTIONS]\n".toList, "UNITS CFS\n".toList, "[OPTIONS]\n".toList,
        "Headloss D-W\n".toList, "[COORDINATES]\n".toList] =
      ["[JUNCTIONS]\n".toList, "[OPTIONS]\n".toList] ++ optionsLines ++
        ["[COORDINATES]\n".toList] := by
  refine (spec_C4 ["[JUNCTIONS]\n".toList, "UNITS CFS\n".toList]
    ["Headloss D-W\n".toList, "[COORDINATES]\n".toList] ("[OPTIONS]\n".toList)
    (by decide) (by decide)).trans ?_
  decide

theorem digitsVal_append (l : List Char) (c : Char) :
    digitsVal (l ++ [c]) = 10 * digitsVal l + (c.toNat - 48) := by
  unfold digitsVal
  rw [List.foldl_append]
  rfl

theorem digitChar_sub48 (n : Nat) (h : n < 10) : (Nat.digitChar n).toNat - 48 = n := by
  interval_cases n <;> rfl

theorem toDigitsCore_append (fuel : Nat) : ∀ (n : Nat) (ds : List Char), n < fuel →
    Nat.toDigitsCore 10 fuel n ds = Nat.toDigitsCore 10 fuel n [] ++ ds := by
  induction fuel with
  | zero => intro n ds h; omega
  | succ fuel ih =>
    intro n ds h
    by_cases hz : n / 10 = 0
    · simp [Nat.toDigitsCore, hz]
    · have hlt : n / 10 < fuel := by
        have h1 : n / 10 < n := Nat.div_lt_self (by omega) (by omega)
        omega
      simp only [Nat.toDigitsCore, hz, if_false]
      rw [ih (n / 10) (Nat.digitChar (n % 10) :: ds) hlt,
        ih (n / 10) [Nat.digitChar (n % 10)] hlt, List.append_assoc]
      rfl

theorem toDigitsCore_val (fuel : Nat) : ∀ n : Nat, n < fuel →
    digitsVal (Nat.toDigitsCore 10 fuel n []) = n := by
  induction fuel with
  | zero => intro n h; omega
  | succ fuel ih =>
    intro n h
    by_cases hz : n / 10 = 0
    · have hn : n < 10 := by omega
      simp only [Nat.toDigitsCore, hz, if_true]
      show 10 * 0 + ((Nat.digitChar (n % 10)).toNat - 48) = n
      rw [digitChar_sub48 _ (Nat.mod_lt _ (by omega))]
      omega
    · have hlt : n / 10 < fuel := by
        have h1 : n / 10 < n := Nat.div_lt_self (by omega) (by omega)
        omega
      simp only [Nat.toDigitsCore, hz, if_false]
      rw [toDigitsCore_append fuel (n / 10) _ hlt, digitsVal_append, ih (n / 10) hlt,
        digitChar_sub48 _ (Nat.mod_lt _ (by omega))]
      omega

theorem natRepr_injective : Function.Injective Nat.repr := by
  intro a b hab
  have hdata : Nat.toDigits 10 a = Nat.toDigits 10 b := by
    have h1 := congrArg String.data hab
    simpa [Nat.repr, List.asString] using h1
  have h2 : digitsVal (Nat.toDigits 10 a) = digitsVal (Nat.toDigits 10 b) := by rw [hdata]
  rwa [Nat.toDigits, Nat.toDigits, toDigitsCore_val _ _ (Nat.lt_succ_self a),
    toDigitsCore_val _ _ (Nat.lt_succ_self b)] at h2

theorem append_toString_nat_inj (s : String) (a b : Nat)
    (h : s ++ toString a = s ++ toString b) : a = b := by
  apply natRepr_injective
  have h1 : (s ++ toString a).data = (s ++ toString b).data := congrArg String.data h
  rw [String.data_append, String.data_append] at h1
  have h2 : (toString a : String).data = (toString b : String).data :=
    List.append_cancel_left h1
  show Nat.repr a = Nat.repr b
  cases hra : Nat.repr a with
  | mk la =>
    cases hrb : Nat.repr b with
    | mk lb =>
      have ha : (toString a : String) = ⟨la⟩ := hra
      have hb : (toString b : String) = ⟨lb⟩ := hrb
      rw [ha, hb] at h2
      have h3 : la = lb := by simpa using h2
      exact congrArg String.mk h3

theorem lookup_cons (k : Coord) (v : String) (d : List (Coord × String)) (c : Coord) :
    List.lookup c ((k, v) :: d) = if c = k then some v else List.lookup c d := by
  by_cases h : c = k
  · subst h; simp [List.lookup]
  · simp [List.lookup, h, beq_eq_false_iff_ne.mpr h]

theorem lookup_eq_none_iff (d : List (Coord × String)) (c : Coord) :
    d.lookup c = none ↔ c ∉ d.map Prod.fst := by
  induction d with
  | nil => simp
  | cons p d ih =>
    obtain ⟨k, v⟩ := p
    rw [lookup_cons]
    by_cases h : c = k
    · subst h; simp
    · simp [h, ih]

theorem lookup_some_mem_values (d : List (Coord × String)) (c : Coord) (v : String)
    (h : d.lookup c = some v) : v ∈ d.map Prod.snd := by
  induction d with
  | nil => simp [List.lookup] at h
  | cons p d ih =>
    obtain ⟨k, w⟩ := p
    rw [lookup_cons] at h
    by_cases hc : c = k
    · simp [hc] at h; simp [h]
    · simp [hc] at h; simp [ih h]

theorem mem_keys_exists_lookup (d : List (Coord × String)) (c : Coord)
    (h : c ∈ d.map Prod.fst) : ∃ v, d.lookup c = some v := by
  cases hl : d.lookup c with
  | none => exact absurd ((lookup_eq_none_iff d c).mp hl) (by simp [h])
  | some v => exact ⟨v, rfl⟩

theorem lookup_inj (d : List (Coord × String)) (hvals : (d.map Prod.snd).Nodup)
    (c1 c2 : Coord) (h1 : c1 ∈ d.map Prod.fst) (h2 : c2 ∈ d.map Prod.fst)
    (heq : d.lookup c1 = d.lookup c2) : c1 = c2 := by
  induction d with
  | nil => simp at h1
  | cons p d ih =>
    obtain ⟨k, v⟩ := p
    rw [lookup_cons, lookup_cons] at heq
    simp only [List.map_cons, List.nodup_cons] at hvals
    by_cases e1 : c1 = k <;> by_cases e2 : c2 = k
    · rw [e1, e2]
    · exfalso
      have hc2 : c2 ∈ d.map Prod.fst := by simpa [e2] using h2
      obtain ⟨v2, hv2⟩ := mem_keys_exists_lookup d c2 hc2
      rw [if_pos e1, if_neg e2, hv2] at heq
      have : v2 ∈ d.map Prod.snd := lookup_some_mem_values d c2 v2 hv2
      exact hvals.1 (by rwa [← (Option.some_injective _ heq)] at this)
    · exfalso
      have hc1 : c1 ∈ d.map Prod.fst := by simpa [e1] using h1
      obtain ⟨v1, hv1⟩ := mem_keys_exists_lookup d c1 hc1
      rw [if_neg e1, if_pos e2, hv1] at heq
      have : v1 ∈ d.map Prod.snd := lookup_some_mem_values d c1 v1 hv1
      exact hvals.1 (by rwa [Option.some_injective _ heq] at this)
    · exact ih hvals.2 (by simpa [e1] using h1) (by simpa [e2] using h2)
        (by rwa [if_neg e1, if_neg e2] at heq)

theorem mem_foldl_dedup (cs : List Coord) : ∀ (acc : List Coord) (c : Coord),
    c ∈ cs.foldl (fun acc c => if c ∈ acc then acc else acc ++ [c]) acc ↔
      c ∈ acc ∨ c ∈ cs := by
  induction cs with
  | nil => simp
  | cons a cs ih =>
    intro acc c
    rw [List.foldl_cons]
    by_cases ha : a ∈ acc
    · rw [if_pos ha, ih]
      constructor
      · rintro (h | h)
        · exact Or.inl h
        · exact Or.inr (List.mem_cons_of_mem _ h)
      · rintro (h | h)
        · exact Or.inl h
        · rcases List.mem_cons.mp h with h | h
          · exact Or.inl (h ▸ ha)
          · exact Or.inr h
    · rw [if_neg ha, ih]
      simp only [List.mem_append, List.mem_singleton, List.mem_cons]
      tauto

theorem mem_firstDedup (cs : List Coord) (c : Coord) :
    c ∈ firstDedup cs ↔ c ∈ cs := by
  rw [firstDedup, mem_foldl_dedup]
  simp

theorem nodup_foldl_dedup (cs : List Coord) : ∀ acc : List Coord,
    acc.Nodup → (cs.foldl (fun acc c => if c ∈ acc then acc else acc ++ [c]) acc).Nodup := by
  induction cs with
  | nil => intro acc h; simpa
  | cons a cs ih =>
    intro acc h
    rw [List.foldl_cons]
    by_cases ha : a ∈ acc
    · rw [if_pos ha]; exact ih acc h
    · rw [if_neg ha]
      exact ih (acc ++ [a]) (by simp [List.nodup_append, h, ha])

theorem nodup_firstDedup (cs : List Coord) : (firstDedup cs).Nodup :=
  nodup_foldl_dedup cs [] List.nodup_nil

theorem firstDedup_concat (cs : List Coord) (c : Coord) :
    firstDedup (cs ++ [c]) =
      if c ∈ firstDedup cs then firstDedup cs else firstDedup cs ++ [c] := by
  rw [firstDedup, List.foldl_append]
  rfl

theorem length_firstDedup (cs : List Coord) :
    (firstDedup cs).length = cs.toFinset.card := by
  have h1 : (firstDedup cs).toFinset = cs.toFinset :=
    Finset.ext fun a => by simp [List.mem_toFinset, mem_firstDedup]
  rw [← h1, List.toFinset_card_of_nodup (nodup_firstDedup cs)]

theorem jstate_spec (cs : List Coord) :
    ((cs.foldl addEndpoint ([], emptyWN)).1.map Prod.fst = firstDedup cs) ∧
    ((cs.foldl addEndpoint ([], emptyWN)).1.map Prod.snd =
      (List.range (cs.foldl addEndpoint ([], emptyWN)).1.length).map
        (fun i => "N" ++ toString (i + 1))) ∧
    ((cs.foldl addEndpoint ([], emptyWN)).2.junctions =
      (cs.foldl addEndpoint ([], emptyWN)).1.map (fun p =>
        { name := p.2, elevation := 0, baseDemand := 0, coordinates := p.1 })) ∧
    ((cs.foldl addEndpoint ([], emptyWN)).2.pipes = []) := by
  induction cs using List.reverseRecOn with
  | nil => simp [firstDedup, emptyWN]
  | append_singleton cs c ih =>
    obtain ⟨hkeys, hids, hjun, hpip⟩ := ih
    rw [List.foldl_append, List.foldl_cons, List.foldl_nil]
    set st := cs.foldl addEndpoint ([], emptyWN) with hst
    rw [firstDedup_concat]
    by_cases hc : c ∈ firstDedup cs
    · have hmem : c ∈ st.1.map Prod.fst := by rw [hkeys]; exact hc
      obtain ⟨v, hv⟩ := mem_keys_exists_lookup st.1 c hmem
      rw [if_pos hc]
      rw [addEndpoint, hv]
      exact ⟨hkeys, hids, hjun, hpip⟩
    · have hmem : c ∉ st.1.map Prod.fst := by rw [hkeys]; exact hc
      have hv : st.1.lookup c = none := (lookup_eq_none_iff st.1 c).mpr hmem
      rw [if_neg hc]
      rw [addEndpoint, hv]
      refine ⟨?_, ?_, ?_, ?_⟩
      · simp only [List.map_append, List.map_cons, List.map_nil, hkeys]
      · simp only [List.map_append, List.map_cons, List.map_nil, List.length_append,
          List.length_cons, List.length_nil]
        rw [hids, List.range_succ]
        simp
      · simp only [List.map_append, List.map_cons, List.map_nil, hjun]
      · simpa using hpip

theorem buildJunctions_eq (links : List LinkRow) :
    buildJunctions links = (endpointCoordList links).foldl addEndpoint ([], emptyWN) := by
  rw [buildJunctions, endpointCoordList]
  suffices h : ∀ init, links.foldl
      (fun st r => addEndpoint (addEndpoint st (startCoords r)) (endCoords r)) init =
      (links.flatMap (fun r => [startCoords r, endCoords r])).foldl addEndpoint init from h _
  induction links with
  | nil => intro init; simp
  | cons r ls ih =>
    intro init
    rw [List.foldl_cons, List.flatMap_cons, List.foldl_append, List.foldl_cons,
      List.foldl_cons, List.foldl_nil, ih]

theorem buildJunctions_keys (links : List LinkRow) :
    (buildJunctions links).1.map Prod.fst = firstDedup (endpointCoordList links) := by
  rw [buildJunctions_eq]; exact (jstate_spec _).1

theorem buildJunctions_ids (links : List LinkRow) :
    (buildJunctions links).1.map Prod.snd =
      (List.range (buildJunctions links).1.length).map (fun i => "N" ++ toString (i + 1)) := by
  rw [buildJunctions_eq]; exact (jstate_spec _).2.1

theorem buildJunctions_junctions (links : List LinkRow) :
    (buildJunctions links).2.junctions = (buildJunctions links).1.map (fun p =>
      { name := p.2, elevation := 0, baseDemand := 0, coordinates := p.1 }) := by
  rw [buildJunctions_eq]; exact (jstate_spec _).2.2.1

theorem buildJunctions_pipes (links : List LinkRow) :
    (buildJunctions links).2.pipes = [] := by
  rw [buildJunctions_eq]; exact (jstate_spec _).2.2.2

theorem buildJunctions_values_nodup (links : List LinkRow) :
    ((buildJunctions links).1.map Prod.snd).Nodup := by
  rw [buildJunctions_ids]
  refine List.Nodup.map ?_ (List.nodup_range _)
  intro a b hab
  have := append_toString_nat_inj "N" (a + 1) (b + 1) hab
  omega

theorem buildJunctions_lookup_isSome (links : List LinkRow) (c : Coord) :
    ((buildJunctions links).1.lookup c).isSome = true ↔ c ∈ endpointCoordList links := by
  rw [← mem_firstDedup, ← buildJunctions_keys]
  cases hl : (buildJunctions links).1.lookup c with
  | none =>
    simp only [Option.isSome_none, Bool.false_eq_true, false_iff]
    exact (lookup_eq_none_iff _ c).mp hl
  | some v =>
    simp only [Option.isSome_some, true_iff]
    by_contra hmem
    rw [(lookup_eq_none_iff _ c).mpr hmem] at hl
    exact absurd hl (by simp)

theorem updateNodes_pipes (dict : List (Coord × String)) (rows : List NodeRow) :
    ∀ wn : WaterNetworkModel, (updateNodes dict wn rows).pipes = wn.pipes := by
  induction rows with
  | nil => intro wn; rfl
  | cons r rows ih =>
    intro wn
    rw [updateNodes, List.foldl_cons]
    cases dict.lookup (rowCoord r) with
    | none => exact ih wn
    | some nid => exact ih _

theorem updateNodes_names (dict : List (Coord × String)) (rows : List NodeRow) :
    ∀ wn : WaterNetworkModel,
      (updateNodes dict wn rows).junctions.map Junction.name =
        wn.junctions.map Junction.name := by
  induction rows with
  | nil => intro wn; rfl
  | cons r rows ih =>
    intro wn
    rw [updateNodes, List.foldl_cons]
    cases dict.lookup (rowCoord r) with
    | none => exact ih wn
    | some nid =>
      show (updateNodes dict _ rows).junctions.map Junction.name = _
      rw [ih _]
      simp only [List.map_map]
      refine List.map_congr_left ?_
      intro j _
      by_cases hj : j.name = nid <;> simp [hj]


theorem foldl_none {α β : Type} (g : Option β → α → Option β)
    (hg : ∀ a, g none a = none) (l : List α) : l.foldl g none = none := by
  induction l with
  | nil => rfl
  | cons a l ih => rw [List.foldl_cons, hg]; exact ih

theorem addPipes_cons (dict : List (Coord × String)) (r : LinkRow) (ls : List LinkRow)
    (wn : WaterNetworkModel) :
    addPipes dict (r :: ls) wn =
      match dict.lookup (startCoords r), dict.lookup (endCoords r) with
      | some n1, some n2 =>
        addPipes dict ls { wn with pipes := wn.pipes ++ [mkPipe wn.pipes.length n1 n2 r] }
      | _, _ => none := by
  rw [addPipes, List.foldl_cons]
  rw [Option.some_bind]
  cases hs : dict.lookup (startCoords r) with
  | none => exact foldl_none _ (fun a => rfl) ls
  | some n1 =>
    cases he : dict.lookup (endCoords r) with
    | none => exact foldl_none _ (fun a => rfl) ls
    | some n2 => rfl

theorem addPipes_go (dict : List (Coord × String)) :
    ∀ (links : List LinkRow) (wn wn' : WaterNetworkModel),
      addPipes dict links wn = some wn' →
      wn'.junctions = wn.junctions ∧
      ∃ newPipes : List Pipe,
        wn'.pipes = wn.pipes ++ newPipes ∧
        newPipes.length = links.length ∧
        ∀ i (h1 : i < links.length) (h2 : i < newPipes.length),
          pipeMatches dict (wn.pipes.length + i) (links.get ⟨i, h1⟩)
            (newPipes.get ⟨i, h2⟩) := by
  intro links
  induction links with
  | nil =>
    intro wn wn' h
    rw [addPipes, List.foldl_nil] at h
    cases h
    refine ⟨rfl, [], by simp, rfl, ?_⟩
    intro i h1
    simp at h1
  | cons r ls ih =>
    intro wn wn' h
    rw [addPipes_cons] at h
    cases hs : dict.lookup (startCoords r) with
    | none => rw [hs] at h; exact Option.noConfusion h
    | some n1 =>
      cases he : dict.lookup (endCoords r) with
      | none => rw [hs, he] at h; exact Option.noConfusion h
      | some n2 =>
        rw [hs, he] at h
        have h' : addPipes dict ls
            { wn with pipes := wn.pipes ++ [mkPipe wn.pipes.length n1 n2 r] } =
              some wn' := h
        obtain ⟨hjun, newPipes, hpp, hlen, hmatch⟩ := ih _ _ h'
        refine ⟨by simpa using hjun, mkPipe wn.pipes.length n1 n2 r :: newPipes, ?_,
          by simp [hlen], ?_⟩
        · rw [hpp]; simp
        · intro i h1 h2
          cases i with
          | zero => exact ⟨n1, n2, hs, he, by simp⟩
          | succ i =>
            have h1' : i < ls.length := by simpa using h1
            have h2' : i < newPipes.length := by simpa using h2
            have hm := hmatch i h1' h2'
            have harith : ({ wn with
                pipes := wn.pipes ++ [mkPipe wn.pipes.length n1 n2 r] } :
                  WaterNetworkModel).pipes.length + i = wn.pipes.length + (i + 1) := by
              simp; omega
            rw [harith] at hm
            simpa using hm

theorem addPipes_isSome (dict : List (Coord × String)) :
    ∀ (links : List LinkRow),
      (∀ r ∈ links, (dict.lookup (startCoords r)).isSome = true ∧
        (dict.lookup (endCoords r)).isSome = true) →
      ∀ wn, ∃ wn', addPipes dict links wn = some wn' := by
  intro links
  induction links with
  | nil => intro _ wn; exact ⟨wn, rfl⟩
  | cons r ls ih =>
    intro hmem wn
    obtain ⟨hs, he⟩ := hmem r (List.mem_cons_self _ _)
    obtain ⟨n1, hn1⟩ := Option.isSome_iff_exists.mp hs
    obtain ⟨n2, hn2⟩ := Option.isSome_iff_exists.mp he
    obtain ⟨wn', hwn'⟩ := ih (fun x hx => hmem x (List.mem_cons_of_mem _ hx))
      { wn with pipes := wn.pipes ++ [mkPipe wn.pipes.length n1 n2 r] }
    refine ⟨wn', ?_⟩
    rw [addPipes_cons, hn1, hn2]
    exact hwn'

theorem rowsMatching_append (dict : List (Coord × String)) (nm : String)
    (rows : List NodeRow) (r : NodeRow) :
    rowsMatching dict nm (rows ++ [r]) =
      rowsMatching dict nm rows ++
        (if dict.lookup (rowCoord r) == some nm then [r] else []) := by
  rw [rowsMatching, rowsMatching, List.filter_append]
  congr 1
  rw [List.filter_singleton]
  cases hc : (List.lookup (rowCoord r) dict == some nm) <;> simp [hc]

theorem updateNodes_append (dict : List (Coord × String)) (rows : List NodeRow)
    (r : NodeRow) (wn : WaterNetworkModel) :
    updateNodes dict wn (rows ++ [r]) =
      match dict.lookup (rowCoord r) with
      | none => updateNodes dict wn rows
      | some nid =>
        { updateNodes dict wn rows with
          junctions := (updateNodes dict wn rows).junctions.map (fun j =>
            if j.name = nid then
              { j with elevation := r.cota / 3.280839895054167,
                       baseDemand := r.demanda / 15850.32314147994 }
            else j) } := by
  rw [updateNodes, List.foldl_append, List.foldl_cons, List.foldl_nil]
  rfl

theorem updateNodes_spec (dict : List (Coord × String)) (rows : List NodeRow) :
    ∀ wn : WaterNetworkModel,
    (updateNodes dict wn rows).junctions.length = wn.junctions.length ∧
    ∀ i (h1 : i < wn.junctions.length) (h2 : i < (updateNodes dict wn rows).junctions.length),
      ((updateNodes dict wn rows).junctions.get ⟨i, h2⟩).name =
        (wn.junctions.get ⟨i, h1⟩).name ∧
      ((updateNodes dict wn rows).junctions.get ⟨i, h2⟩).coordinates =
        (wn.junctions.get ⟨i, h1⟩).coordinates ∧
      (match (rowsMatching dict (wn.junctions.get ⟨i, h1⟩).name rows).getLast? with
       | none => (updateNodes dict wn rows).junctions.get ⟨i, h2⟩ = wn.junctions.get ⟨i, h1⟩
       | some r =>
         ((updateNodes dict wn rows).junctions.get ⟨i, h2⟩).elevation =
           r.cota / 3.280839895054167 ∧
         ((updateNodes dict wn rows).junctions.get ⟨i, h2⟩).baseDemand =
           r.demanda / 15850.32314147994) := by
  induction rows using List.reverseRecOn with
  | nil =>
    intro wn
    refine ⟨rfl, ?_⟩
    intro i h1 h2
    exact ⟨rfl, rfl, rfl⟩
  | append_singleton rows r ih =>
    intro wn
    obtain ⟨ihlen, ihget⟩ := ih wn
    rw [updateNodes_append]
    cases hl : dict.lookup (rowCoord r) with
    | none =>
      refine ⟨ihlen, ?_⟩
      intro i h1 h2
      obtain ⟨hname, hcoord, hmatch⟩ := ihget i h1 h2
      refine ⟨hname, hcoord, ?_⟩
      rw [rowsMatching_append, hl]
      simpa using hmatch
    | some nid =>
      have hlen' : (((updateNodes dict wn rows).junctions.map (fun j =>
          if j.name = nid then
            { j with elevation := r.cota / 3.280839895054167,
                     baseDemand := r.demanda / 15850.32314147994 }
          else j))).length = wn.junctions.length := by
        rw [List.length_map]; exact ihlen
      refine ⟨hlen', ?_⟩
      intro i h1 h2
      have h2' : i < (updateNodes dict wn rows).junctions.length := by
        rw [List.length_map] at h2; exact h2
      obtain ⟨hname, hcoord, hmatch⟩ := ihget i h1 h2'
      have hget : ((updateNodes dict wn rows).junctions.map (fun j =>
          if j.name = nid then
            { j with elevation := r.cota / 3.280839895054167,
                     baseDemand := r.demanda / 15850.32314147994 }
          else j)).get ⟨i, h2⟩ =
          (fun j => if j.name = nid then
            { j with elevation := r.cota / 3.280839895054167,
                     baseDemand := r.demanda / 15850.32314147994 }
          else j) ((updateNodes dict wn rows).junctions.get ⟨i, h2'⟩) :=
        List.get_map _
      by_cases hnm : (wn.junctions.get ⟨i, h1⟩).name = nid
      · have hcond : ((updateNodes dict wn rows).junctions.get ⟨i, h2'⟩).name = nid := by
          rw [hname]; exact hnm
        rw [hget]
        beta_reduce
        rw [if_pos hcond]
        refine ⟨hname, hcoord, ?_⟩
        rw [rowsMatching_append, hl]
        have hbeq : ((some nid : Option String) ==
            some (wn.junctions.get ⟨i, h1⟩).name) = true := by
          simp only [beq_iff_eq]
          exact congrArg some hnm.symm
        rw [if_pos hbeq, List.getLast?_concat]
        exact ⟨rfl, rfl⟩
      · have hcond : ((updateNodes dict wn rows).junctions.get ⟨i, h2'⟩).name = nid → False := by
          rw [hname]; exact hnm
        rw [hget]
        beta_reduce
        rw [if_neg hcond]
        refine ⟨hname, hcoord, ?_⟩
        rw [rowsMatching_append, hl]
        have hbeq : ¬ (((some nid : Option String) ==
            some (wn.junctions.get ⟨i, h1⟩).name) = true) := by
          simp only [beq_iff_eq, Option.some.injEq]
          exact fun hc => hnm hc.symm
        rw [if_neg hbeq, List.append_nil]
        exact hmatch

theorem startCoords_mem (links : List LinkRow) (r : LinkRow) (h : r ∈ links) :
    startCoords r ∈ endpointCoordList links := by
  rw [endpointCoordList]
  exact List.mem_flatMap.mpr ⟨r, h, by simp⟩

theorem endCoords_mem (links : List LinkRow) (r : LinkRow) (h : r ∈ links) :
    endCoords r ∈ endpointCoordList links := by
  rw [endpointCoordList]
  exact List.mem_flatMap.mpr ⟨r, h, by simp⟩

theorem buildJunctions_names (links : List LinkRow) :
    (buildJunctions links).2.junctions.map Junction.name =
      (buildJunctions links).1.map Prod.snd := by
  rw [buildJunctions_junctions, List.map_map]
  rfl

theorem wn1_pipes_nil (nodes : List NodeRow) (links : List LinkRow) :
    (updateNodes (buildJunctions links).1 (buildJunctions links).2 nodes).pipes = [] := by
  rw [updateNodes_pipes, buildJunctions_pipes]

/-- C1: the junctions created by the first pass are in bijection with the
distinct rounded endpoint coordinates of the links layer: the number of
junctions equals the number of distinct rounded endpoint coordinates, and
two endpoint coordinates resolve to the same junction through `nodes_dict`
iff they are equal. -/
theorem spec_C1 (links : List LinkRow) (c1 c2 : Coord)
    (h1 : c1 ∈ endpointCoordList links) (h2 : c2 ∈ endpointCoordList links) :
    (buildJunctions links).2.junctions.length = (endpointCoordList links).toFinset.card ∧
    ((buildJunctions links).1.lookup c1 = (buildJunctions links).1.lookup c2 ↔ c1 = c2) := by
  have hkeys := buildJunctions_keys links
  constructor
  · rw [buildJunctions_junctions, List.length_map]
    have hlen : (buildJunctions links).1.length =
        ((buildJunctions links).1.map Prod.fst).length := (List.length_map _ _).symm
    rw [hlen, hkeys, length_firstDedup]
  · constructor
    · intro heq
      refine lookup_inj _ (buildJunctions_values_nodup links) c1 c2 ?_ ?_ heq
      · rw [hkeys]; exact (mem_firstDedup _ _).mpr h1
      · rw [hkeys]; exact (mem_firstDedup _ _).mpr h2
    · intro heq; rw [heq]

/-- Witness for C1: one link from (0,0) to (1,0); the two endpoints are in
the endpoint list and the bijection holds for them. -/
theorem spec_C1_witness :
    (buildJunctions [(⟨[((0 : ℚ), (0 : ℚ)), ((1 : ℚ), (0 : ℚ))], 6, 100, 120⟩ :
        LinkRow)]).2.junctions.length =
      (endpointCoordList [(⟨[((0 : ℚ), (0 : ℚ)), ((1 : ℚ), (0 : ℚ))], 6, 100, 120⟩ :
        LinkRow)]).toFinset.card ∧
    ((buildJunctions [(⟨[((0 : ℚ), (0 : ℚ)), ((1 : ℚ), (0 : ℚ))], 6, 100, 120⟩ :
        LinkRow)]).1.lookup
        (startCoords ⟨[((0 : ℚ), (0 : ℚ)), ((1 : ℚ), (0 : ℚ))], 6, 100, 120⟩) =
      (buildJunctions [(⟨[((0 : ℚ), (0 : ℚ)), ((1 : ℚ), (0 : ℚ))], 6, 100, 120⟩ :
        LinkRow)]).1.lookup
        (endCoords ⟨[((0 : ℚ), (0 : ℚ)), ((1 : ℚ), (0 : ℚ))], 6, 100, 120⟩) ↔
      startCoords (⟨[((0 : ℚ), (0 : ℚ)), ((1 : ℚ), (0 : ℚ))], 6, 100, 120⟩ : LinkRow) =
        endCoords ⟨[((0 : ℚ), (0 : ℚ)), ((1 : ℚ), (0 : ℚ))], 6, 100, 120⟩) :=
  spec_C1 _ _ _ (by simp [endpointCoordList]) (by simp [endpointCoordList])

/-- C2: for every nodes layer and links layer, the third pass succeeds (no
endpoint lookup can fail, because the first pass registered every rounded
link endpoint before any pipe is added), and every pipe added references
two junction names present in the resulting model. -/
theorem spec_C2 (nodes : List NodeRow) (links : List LinkRow) :
    ∃ wn2, addPipes (buildJunctions links).1 links
        (updateNodes (buildJunctions links).1 (buildJunctions links).2 nodes) = some wn2 ∧
      ∀ p ∈ wn2.pipes,
        p.startNode ∈ wn2.junctions.map Junction.name ∧
        p.endNode ∈ wn2.junctions.map Junction.name := by
  have hlk : ∀ r ∈ links,
      (((buildJunctions links).1.lookup (startCoords r)).isSome = true) ∧
      (((buildJunctions links).1.lookup (endCoords r)).isSome = true) := by
    intro r hr
    exact ⟨(buildJunctions_lookup_isSome links _).mpr (startCoords_mem links r hr),
      (buildJunctions_lookup_isSome links _).mpr (endCoords_mem links r hr)⟩
  obtain ⟨wn2, hwn2⟩ := addPipes_isSome (buildJunctions links).1 links hlk
    (updateNodes (buildJunctions links).1 (buildJunctions links).2 nodes)
  refine ⟨wn2, hwn2, ?_⟩
  obtain ⟨hjun, newPipes, hpp, hlen, hmatch⟩ :=
    addPipes_go (buildJunctions links).1 links _ wn2 hwn2
  have hnames : wn2.junctions.map Junction.name =
      (buildJunctions links).1.map Prod.snd := by
    rw [hjun, updateNodes_names, buildJunctions_names]
  intro p hp
  rw [hpp, wn1_pipes_nil, List.nil_append] at hp
  obtain ⟨⟨i, hi⟩, hgi⟩ := List.mem_iff_get.mp hp
  have hi' : i < links.length := by rw [← hlen]; exact hi
  obtain ⟨n1, n2, hs, he, hpe⟩ := hmatch i hi' hi
  have hps : p.startNode = n1 := by rw [← hgi, hpe]; rfl
  have hpn : p.endNode = n2 := by rw [← hgi, hpe]; rfl
  rw [hps, hpn, hnames]
  exact ⟨lookup_some_mem_values _ _ _ hs, lookup_some_mem_values _ _ _ he⟩

theorem pipeline_total (nodes : List NodeRow) (links : List LinkRow) :
    ∃ wn2, addPipes (buildJunctions links).1 links
      (updateNodes (buildJunctions links).1 (buildJunctions links).2 nodes) = some wn2 := by
  refine addPipes_isSome (buildJunctions links).1 links ?_ _
  intro r hr
  exact ⟨(buildJunctions_lookup_isSome links _).mpr (startCoords_mem links r hr),
    (buildJunctions_lookup_isSome links _).mpr (endCoords_mem links r hr)⟩

theorem pyRound6_intCast (n : ℤ) : pyRound6 (n : ℚ) = n := by
  unfold pyRound6 roundHalfEven
  have h1 : ((n : ℚ) * 1000000) = ((n * 1000000 : ℤ) : ℚ) := by push_cast; ring
  rw [h1, Int.floor_intCast]
  norm_num

theorem pyRound6_zero : pyRound6 (0 : ℚ) = 0 := by simpa using pyRound6_intCast 0

theorem pyRound6_one : pyRound6 (1 : ℚ) = 1 := by simpa using pyRound6_intCast 1

theorem pyRound6_five : pyRound6 (5 : ℚ) = 5 := by simpa using pyRound6_intCast 5

theorem get_congr {α : Type} (l1 l2 : List α) (h : l1 = l2) (k : Nat)
    (hk1 : k < l1.length) (hk2 : k < l2.length) :
    l1.get ⟨k, hk1⟩ = l2.get ⟨k, hk2⟩ := by subst h; rfl

/-- C9: identifiers are sequential and 1-based: the dictionary built by the
first pass maps the distinct rounded endpoint coordinates in first-seen
order (start before end within a row) to `N1, N2, …` in order, and the
pipes created by the third pass are named `P1, P2, …` in creation order. -/
theorem spec_C9 (nodes : List NodeRow) (links : List LinkRow) (wn2 : WaterNetworkModel)
    (h : addPipes (buildJunctions links).1 links
        (updateNodes (buildJunctions links).1 (buildJunctions links).2 nodes) = some wn2) :
    (buildJunctions links).1.map Prod.fst = firstDedup (endpointCoordList links) ∧
    (buildJunctions links).1.map Prod.snd =
      (List.range (buildJunctions links).1.length).map (fun i => "N" ++ toString (i + 1)) ∧
    wn2.pipes.map Pipe.name =
      (List.range links.length).map (fun i => "P" ++ toString (i + 1)) := by
  refine ⟨buildJunctions_keys links, buildJunctions_ids links, ?_⟩
  obtain ⟨hjun, newPipes, hpp, hlen, hmatch⟩ :=
    addPipes_go (buildJunctions links).1 links _ wn2 h
  rw [hpp, wn1_pipes_nil nodes links, List.nil_append]
  refine List.ext_get ?_ ?_
  · rw [List.length_map, hlen, List.length_map, List.length_range]
  · intro i hi1 hi2
    have hi : i < newPipes.length := by rw [List.length_map] at hi1; exact hi1
    have hi' : i < links.length := by rw [← hlen]; exact hi
    have hir : i < (List.range links.length).length := by
      rw [List.length_range]; exact hi'
    obtain ⟨n1, n2, hs, he, hpe⟩ := hmatch i hi' hi
    rw [wn1_pipes_nil nodes links] at hpe
    simp only [List.length_nil, Nat.zero_add] at hpe
    have hL : (newPipes.map Pipe.name).get ⟨i, hi1⟩ = (newPipes.get ⟨i, hi⟩).name :=
      List.get_map _
    have hR : ((List.range links.length).map (fun j => "P" ++ toString (j + 1))).get
        ⟨i, hi2⟩ = "P" ++ toString ((List.range links.length).get ⟨i, hir⟩ + 1) :=
      List.get_map _
    have hRR : (List.range links.length).get ⟨i, hir⟩ = i := List.get_range _ _
    rw [hL, hR, hRR, hpe]
    rfl

/-- C10: a link whose first and last vertices round to the same coordinate
yields a single junction for both endpoints and a self-loop pipe, with no
error and no skipped feature (the pipe count equals the row count). -/
theorem spec_C10 (nodes : List NodeRow) (links : List LinkRow) (k : Nat) (r : LinkRow)
    (hk : k < links.length) (hr : links.get ⟨k, hk⟩ = r)
    (hself : startCoords r = endCoords r) :
    (∃ n, (buildJunctions links).1.lookup (startCoords r) = some n ∧
          (buildJunctions links).1.lookup (endCoords r) = some n) ∧
    ∃ wn2, addPipes (buildJunctions links).1 links
        (updateNodes (buildJunctions links).1 (buildJunctions links).2 nodes) = some wn2 ∧
      wn2.pipes.length = links.length ∧
      ∀ h2 : k < wn2.pipes.length,
        (wn2.pipes.get ⟨k, h2⟩).startNode = (wn2.pipes.get ⟨k, h2⟩).endNode := by
  have hrmem : r ∈ links := hr ▸ List.get_mem links k hk
  obtain ⟨n, hn⟩ := Option.isSome_iff_exists.mp
    ((buildJunctions_lookup_isSome links _).mpr (startCoords_mem links r hrmem))
  refine ⟨⟨n, hn, by rw [← hself]; exact hn⟩, ?_⟩
  obtain ⟨wn2, hwn2⟩ := pipeline_total nodes links
  obtain ⟨hjun, newPipes, hpp, hlen, hmatch⟩ :=
    addPipes_go (buildJunctions links).1 links _ wn2 hwn2
  have hw2p : wn2.pipes = newPipes := by
    rw [hpp, wn1_pipes_nil nodes links, List.nil_append]
  refine ⟨wn2, hwn2, by rw [hw2p, hlen], ?_⟩
  intro h2
  have hknew : k < newPipes.length := by rw [← hw2p]; exact h2
  obtain ⟨n1, n2, hs, he, hpe⟩ := hmatch k hk hknew
  rw [wn1_pipes_nil nodes links] at hpe
  simp only [List.length_nil, Nat.zero_add] at hpe
  rw [get_congr wn2.pipes newPipes hw2p k h2 hknew, hpe]
  rw [hr] at hs he
  rw [hself] at hs
  rw [hs] at he
  have hn12 : n1 = n2 := Option.some_injective _ he
  rw [hn12]
  rfl

/-- C3: unit conversions use the exact literal divisors of the source: a
matched node record stores `Cota / 3.280839895054167` as elevation and
`Demanda / 15850.32314147994` as base demand (the last matching record
wins), every pipe stores `Shape__Len / 3.280839895032449` as length and
`diameter / 39.37007874` as diameter, passes `rugosidade` through
unmodified with minor loss zero, and the length divisor differs from the
elevation divisor. -/
theorem spec_C3 (nodes : List NodeRow) (links : List LinkRow) (wn2 : WaterNetworkModel)
    (h : addPipes (buildJunctions links).1 links
        (updateNodes (buildJunctions links).1 (buildJunctions links).2 nodes) = some wn2) :
    (∀ i (h1 : i < (buildJunctions links).2.junctions.length)
        (h2 : i < (updateNodes (buildJunctions links).1
          (buildJunctions links).2 nodes).junctions.length),
      ∀ r ∈ (rowsMatching (buildJunctions links).1
          (((buildJunctions links).2.junctions.get ⟨i, h1⟩).name) nodes).getLast?,
        ((updateNodes (buildJunctions links).1
            (buildJunctions links).2 nodes).junctions.get ⟨i, h2⟩).elevation =
          r.cota / 3.280839895054167 ∧
        ((updateNodes (buildJunctions links).1
            (buildJunctions links).2 nodes).junctions.get ⟨i, h2⟩).baseDemand =
          r.demanda / 15850.32314147994) ∧
    (∀ i (h2 : i < wn2.pipes.length) (h1 : i < links.length),
      (wn2.pipes.get ⟨i, h2⟩).length = (links.get ⟨i, h1⟩).shapeLen / 3.280839895032449 ∧
      (wn2.pipes.get ⟨i, h2⟩).diameter = (links.get ⟨i, h1⟩).diameter / 39.37007874 ∧
      (wn2.pipes.get ⟨i, h2⟩).roughness = (links.get ⟨i, h1⟩).rugosidade ∧
      (wn2.pipes.get ⟨i, h2⟩).minorLoss = 0) ∧
    (3.280839895054167 : ℚ) ≠ 3.280839895032449 := by
  refine ⟨?_, ?_, by norm_num⟩
  · intro i h1 h2 r hr
    obtain ⟨hlen, hget⟩ := updateNodes_spec (buildJunctions links).1 nodes
      (buildJunctions links).2
    obtain ⟨hname, hcoord, hmatch⟩ := hget i h1 h2
    rw [Option.mem_def] at hr
    rw [hr] at hmatch
    exact hmatch
  · obtain ⟨hjun, newPipes, hpp, hlen, hmatch⟩ :=
      addPipes_go (buildJunctions links).1 links _ wn2 h
    have hw2p : wn2.pipes = newPipes := by
      rw [hpp, wn1_pipes_nil nodes links, List.nil_append]
    intro i h2 h1
    have hinew : i < newPipes.length := by rw [← hw2p]; exact h2
    obtain ⟨n1, n2, hs, he, hpe⟩ := hmatch i h1 hinew
    rw [wn1_pipes_nil nodes links] at hpe
    simp only [List.length_nil, Nat.zero_add] at hpe
    rw [get_congr wn2.pipes newPipes hw2p i h2 hinew, hpe]
    exact ⟨rfl, rfl, rfl, rfl⟩

theorem updateNodes_skip (dict : List (Coord × String)) (rows1 rows2 : List NodeRow)
    (r : NodeRow) (wn : WaterNetworkModel)
    (h : dict.lookup (rowCoord r) = none) :
    updateNodes dict wn (rows1 ++ r :: rows2) = updateNodes dict wn (rows1 ++ rows2) := by
  rw [updateNodes, updateNodes, List.foldl_append, List.foldl_append, List.foldl_cons]
  congr 1
  beta_reduce
  rw [h]

/-- C8: a nodes-layer record whose rounded coordinate matches no link
endpoint is silently skipped — the conversion result is the same as if the
record were absent and no error arises — and a junction matched by no
nodes-layer record keeps elevation 0 and base demand 0. -/
theorem spec_C8 (nodes : NodesTable) (links : LinksTable)
    (serialize : WaterNetworkModel → List Line)
    (rows1 rows2 : List NodeRow) (r : NodeRow)
    (hrows : nodes.rows = rows1 ++ r :: rows2)
    (horphan : (buildJunctions links.rows).1.lookup (rowCoord r) = none) :
    convert_shp_to_inp nodes links serialize =
      convert_shp_to_inp { nodes with rows := rows1 ++ rows2 } links serialize ∧
    ∀ i (h1 : i < (buildJunctions links.rows).2.junctions.length)
      (h2 : i < (updateNodes (buildJunctions links.rows).1
        (buildJunctions links.rows).2 nodes.rows).junctions.length),
      rowsMatching (buildJunctions links.rows).1
        (((buildJunctions links.rows).2.junctions.get ⟨i, h1⟩).name) nodes.rows = [] →
      ((updateNodes (buildJunctions links.rows).1
        (buildJunctions links.rows).2 nodes.rows).junctions.get ⟨i, h2⟩).elevation = 0 ∧
      ((updateNodes (buildJunctions links.rows).1
        (buildJunctions links.rows).2 nodes.rows).junctions.get ⟨i, h2⟩).baseDemand = 0 := by
  constructor
  · have hupd : updateNodes (buildJunctions links.rows).1
        (buildJunctions links.rows).2 nodes.rows =
        updateNodes (buildJunctions links.rows).1
          (buildJunctions links.rows).2 (rows1 ++ rows2) := by
      rw [hrows]
      exact updateNodes_skip _ _ _ _ _ horphan
    simp only [convert_shp_to_inp]
    rw [hupd]
  · intro i h1 h2 hempty
    obtain ⟨hulen, hget⟩ := updateNodes_spec (buildJunctions links.rows).1 nodes.rows
      (buildJunctions links.rows).2
    obtain ⟨hname, hcoord, hmatch⟩ := hget i h1 h2
    rw [hempty] at hmatch
    simp only [List.getLast?_nil] at hmatch
    have hb := buildJunctions_junctions links.rows
    have hi' : i < ((buildJunctions links.rows).1.map (fun p =>
        ({ name := p.2, elevation := 0, baseDemand := 0,
           coordinates := p.1 } : Junction))).length := by
      rw [← hb]; exact h1
    have h1d : i < (buildJunctions links.rows).1.length := by
      rw [List.length_map] at hi'; exact hi'
    have hgc := get_congr _ _ hb i h1 hi'
    have hm : ((buildJunctions links.rows).1.map (fun p =>
        ({ name := p.2, elevation := 0, baseDemand := 0,
           coordinates := p.1 } : Junction))).get ⟨i, hi'⟩ =
        { name := ((buildJunctions links.rows).1.get ⟨i, h1d⟩).2, elevation := 0,
          baseDemand := 0,
          coordinates := ((buildJunctions links.rows).1.get ⟨i, h1d⟩).1 } :=
      List.get_map _
    rw [hmatch, hgc, hm]
    exact ⟨rfl, rfl⟩

/-- C6 (amended): a failed column validation yields the `ValueError` whose
message enumerates the full required column set of that layer (node columns
first; link columns only when node validation passed), and no output is
produced. -/
theorem spec_C6 (nodes : NodesTable) (links : LinksTable)
    (serialize : WaterNetworkModel → List Line) :
    (requiredNodeCols.all (fun c => nodes.columns.contains c) = false →
      convert_shp_to_inp nodes links serialize =
        Except.error (ConvError.missingCols "nós" requiredNodeCols)) ∧
    (requiredNodeCols.all (fun c => nodes.columns.contains c) = true →
     requiredLinkCols.all (fun c => links.columns.contains c) = false →
      convert_shp_to_inp nodes links serialize =
        Except.error (ConvError.missingCols "trechos" requiredLinkCols)) := by
  constructor
  · intro hn
    simp only [convert_shp_to_inp]
    rw [hn]
    simp
  · intro hn hl
    simp only [convert_shp_to_inp]
    rw [hn, hl]
    simp

/-- Counterexample to C6 as stated: with only `Cota` missing (and `Demanda`
present in the table), the error still lists `Demanda`, so the message does
not list exactly the missing columns. -/
theorem spec_C6_counterexample :
    convert_shp_to_inp ⟨["Demanda"], []⟩ ⟨["diameter", "Shape__Len", "rugosidade"], []⟩
        (fun _ => []) =
      Except.error (ConvError.missingCols "nós" ["Cota", "Demanda"]) ∧
    "Demanda" ∈ ["Cota", "Demanda"] ∧ "Demanda" ∈ ["Demanda"] := by
  refine ⟨?_, by simp, by simp⟩
  rfl

/-- Witness for C6 (amended) at concrete inputs: one call missing a node
column, one call with valid node columns but a missing link column. -/
theorem spec_C6_witness :
    convert_shp_to_inp ⟨["Demanda", "id"], []⟩
        ⟨["diameter", "Shape__Len", "rugosidade"], []⟩ (fun _ => []) =
      Except.error (ConvError.missingCols "nós" requiredNodeCols) ∧
    convert_shp_to_inp ⟨["Cota", "Demanda"], []⟩ ⟨["rugosidade"], []⟩ (fun _ => []) =
      Except.error (ConvError.missingCols "trechos" requiredLinkCols) :=
  ⟨(spec_C6 ⟨["Demanda", "id"], []⟩ ⟨["diameter", "Shape__Len", "rugosidade"], []⟩
      (fun _ => [])).1 (by decide),
   (spec_C6 ⟨["Cota", "Demanda"], []⟩ ⟨["rugosidade"], []⟩ (fun _ => [])).2
      (by decide) (by decide)⟩

theorem postProcess_no_header (data : List Line)
    (h : ∀ l ∈ data, isOptionsHeader l = false) :
    postProcess data = data.filter keepLine := by
  have hnone : hdrIdx (data.filter keepLine) = none :=
    (hdrIdx_eq_none_iff _).mpr (fun l hl => h l (List.mem_of_mem_filter hl))
  rw [postProcess, scanLines_eq, hnone]

/-- C7 (amended): when the serialized model text contains no `[OPTIONS]`
header, the conversion does not fail: it returns the serialized lines with
the unit lines stripped and no option lines inserted. -/
theorem spec_C7 (nodes : NodesTable) (links : LinksTable)
    (serialize : WaterNetworkModel → List Line)
    (hn : requiredNodeCols.all (fun c => nodes.columns.contains c) = true)
    (hl : requiredLinkCols.all (fun c => links.columns.contains c) = true)
    (hser : ∀ wn, ∀ l ∈ serialize wn, isOptionsHeader l = false) :
    ∃ wn2, addPipes (buildJunctions links.rows).1 links.rows
        (updateNodes (buildJunctions links.rows).1
          (buildJunctions links.rows).2 nodes.rows) = some wn2 ∧
      convert_shp_to_inp nodes links serialize =
        Except.ok ((serialize wn2).filter keepLine) := by
  obtain ⟨wn2, h2⟩ := pipeline_total nodes.rows links.rows
  refine ⟨wn2, h2, ?_⟩
  simp only [convert_shp_to_inp, hn, hl, if_true]
  rw [h2]
  show Except.ok (postProcess (serialize wn2)) =
    Except.ok ((serialize wn2).filter keepLine)
  rw [postProcess_no_header _ (hser wn2)]

/-- Counterexample to C7 as stated: a conversion whose serialized text has
no `[OPTIONS]` header returns output text (`Except.ok`), not a failure. -/
theorem spec_C7_counterexample :
    convert_shp_to_inp ⟨["Cota", "Demanda"], []⟩
        ⟨["diameter", "Shape__Len", "rugosidade"], []⟩
        (fun _ => ["[PIPES]\n".toList]) =
      Except.ok ["[PIPES]\n".toList] := by
  rfl

/-- Witness for C7 (amended) at a concrete input. -/
theorem spec_C7_witness :
    ∃ wn2, addPipes (buildJunctions ([] : List LinkRow)).1 []
        (updateNodes (buildJunctions ([] : List LinkRow)).1
          (buildJunctions ([] : List LinkRow)).2 []) = some wn2 ∧
      convert_shp_to_inp ⟨["Cota", "Demanda"], []⟩
          ⟨["diameter", "Shape__Len", "rugosidade"], []⟩ (fun _ => ["x\n".toList]) =
        Except.ok (["x\n".toList].filter keepLine) :=
  spec_C7 ⟨["Cota", "Demanda"], []⟩ ⟨["diameter", "Shape__Len", "rugosidade"], []⟩
    (fun _ => ["x\n".toList]) (by decide) (by decide)
    (by intro wn l hl; simp at hl; subst hl; decide)

/-- Witness for C9: one link, empty nodes layer; both identifier clauses
hold for the resulting model. -/
theorem spec_C9_witness :
    ∃ wn2, addPipes (buildJunctions [wlink0]).1 [wlink0]
        (updateNodes (buildJunctions [wlink0]).1 (buildJunctions [wlink0]).2 []) =
          some wn2 ∧
      ((buildJunctions [wlink0]).1.map Prod.fst = firstDedup (endpointCoordList [wlink0]) ∧
       (buildJunctions [wlink0]).1.map Prod.snd =
         (List.range (buildJunctions [wlink0]).1.length).map
           (fun i => "N" ++ toString (i + 1)) ∧
       wn2.pipes.map Pipe.name =
         (List.range ([wlink0] : List LinkRow).length).map
           (fun i => "P" ++ toString (i + 1))) := by
  obtain ⟨wn2, h⟩ := pipeline_total [] [wlink0]
  exact ⟨wn2, h, spec_C9 [] [wlink0] wn2 h⟩

/-- Witness for C10: a degenerate link at (2,2) produces one junction and a
self-loop pipe. -/
theorem spec_C10_witness :
    (∃ n, (buildJunctions [wlink1]).1.lookup (startCoords wlink1) = some n ∧
          (buildJunctions [wlink1]).1.lookup (endCoords wlink1) = some n) ∧
    ∃ wn2, addPipes (buildJunctions [wlink1]).1 [wlink1]
        (updateNodes (buildJunctions [wlink1]).1 (buildJunctions [wlink1]).2 []) =
          some wn2 ∧
      wn2.pipes.length = ([wlink1] : List LinkRow).length ∧
      ∀ h2 : 0 < wn2.pipes.length,
        (wn2.pipes.get ⟨0, h2⟩).startNode = (wn2.pipes.get ⟨0, h2⟩).endNode :=
  spec_C10 [] [wlink1] 0 wlink1 (by decide) rfl rfl

/-- Witness for C3: one node record matching the start endpoint of one link. -/
theorem spec_C3_witness :
    ∃ wn2, addPipes (buildJunctions [wlink2]).1 [wlink2]
        (updateNodes (buildJunctions [wlink2]).1 (buildJunctions [wlink2]).2 [wnode2]) =
          some wn2 ∧
      ((∀ i (h1 : i < (buildJunctions [wlink2]).2.junctions.length)
          (h2 : i < (updateNodes (buildJunctions [wlink2]).1
            (buildJunctions [wlink2]).2 [wnode2]).junctions.length),
        ∀ r ∈ (rowsMatching (buildJunctions [wlink2]).1
            (((buildJunctions [wlink2]).2.junctions.get ⟨i, h1⟩).name) [wnode2]).getLast?,
          ((updateNodes (buildJunctions [wlink2]).1
              (buildJunctions [wlink2]).2 [wnode2]).junctions.get ⟨i, h2⟩).elevation =
            r.cota / 3.280839895054167 ∧
          ((updateNodes (buildJunctions [wlink2]).1
              (buildJunctions [wlink2]).2 [wnode2]).junctions.get ⟨i, h2⟩).baseDemand =
            r.demanda / 15850.32314147994) ∧
       (∀ i (h2 : i < wn2.pipes.length) (h1 : i < ([wlink2] : List LinkRow).length),
         (wn2.pipes.get ⟨i, h2⟩).length =
           (([wlink2] : List LinkRow).get ⟨i, h1⟩).shapeLen / 3.280839895032449 ∧
         (wn2.pipes.get ⟨i, h2⟩).diameter =
           (([wlink2] : List LinkRow).get ⟨i, h1⟩).diameter / 39.37007874 ∧
         (wn2.pipes.get ⟨i, h2⟩).roughness =
           (([wlink2] : List LinkRow).get ⟨i, h1⟩).rugosidade ∧
         (wn2.pipes.get ⟨i, h2⟩).minorLoss = 0) ∧
       (3.280839895054167 : ℚ) ≠ 3.280839895032449) := by
  obtain ⟨wn2, h⟩ := pipeline_total [wnode2] [wlink2]
  exact ⟨wn2, h, spec_C3 [wnode2] [wlink2] wn2 h⟩

/-- Witness for C8: a node record at (5,5) is an orphan for a links layer
whose only endpoints round to (0,0). -/
theorem spec_C8_witness :
    convert_shp_to_inp ⟨["Cota", "Demanda"], [wnode3]⟩
        ⟨["diameter", "Shape__Len", "rugosidade"], [wlink3]⟩ (fun _ => []) =
      convert_shp_to_inp
        { (⟨["Cota", "Demanda"], [wnode3]⟩ : NodesTable) with rows := ([] : List NodeRow) ++ [] }
        ⟨["diameter", "Shape__Len", "rugosidade"], [wlink3]⟩ (fun _ => []) ∧
    ∀ i (h1 : i < (buildJunctions [wlink3]).2.junctions.length)
      (h2 : i < (updateNodes (buildJunctions [wlink3]).1
        (buildJunctions [wlink3]).2 [wnode3]).junctions.length),
      rowsMatching (buildJunctions [wlink3]).1
        (((buildJunctions [wlink3]).2.junctions.get ⟨i, h1⟩).name) [wnode3] = [] →
      ((updateNodes (buildJunctions [wlink3]).1
        (buildJunctions [wlink3]).2 [wnode3]).junctions.get ⟨i, h2⟩).elevation = 0 ∧
      ((updateNodes (buildJunctions [wlink3]).1
        (buildJunctions [wlink3]).2 [wnode3]).junctions.get ⟨i, h2⟩).baseDemand = 0 := by
  have hsv : startCoords wlink3 = (pyRound6 0, pyRound6 0) := rfl
  have hev : endCoords wlink3 = (pyRound6 0, pyRound6 0) := rfl
  have hrv : rowCoord wnode3 = (pyRound6 5, pyRound6 5) := rfl
  have horphan : (buildJunctions [wlink3]).1.lookup (rowCoord wnode3) = none := by
    refine (lookup_eq_none_iff _ _).mpr ?_
    rw [buildJunctions_keys]
    intro hmem
    rw [mem_firstDedup] at hmem
    simp only [endpointCoordList, List.flatMap_cons, List.flatMap_nil, List.append_nil,
      List.mem_cons, List.not_mem_nil, or_false] at hmem
    rw [hrv, hsv, hev, pyRound6_five, pyRound6_zero] at hmem
    rcases hmem with h | h <;> rw [Prod.mk.injEq] at h <;> exact absurd h.1 (by norm_num)
  exact spec_C8 ⟨["Cota", "Demanda"], [wnode3]⟩
    ⟨["diameter", "Shape__Len", "rugosidade"], [wlink3]⟩ (fun _ => []) [] [] wnode3
    rfl horphan
